import Mathlib

/-!
Shallow embedding of the Gutenberg static-site generator's content core and
asset pipeline: page parsing (slug, url path, components and permalink
derivation), asset collection for index-style files, the staleness-aware
file copy, and the filesystem-change classification of the serve command.
Definitions follow the Rust source; helpers whose source is not available
(the front-matter splitter, FileInfo, Config::make_permalink and
find_related_assets) are modelled from the specification and marked as such
in their doc comments.
-/

/-- Whitespace characters recognized by the front-matter splitter and by
string trimming (the ASCII cases of Rust char::is_whitespace that occur in
content files). -/
def isWsChar (c : Char) : Bool :=
  c = ' ' || c = '\t' || c = '\n' || c = '\r'

/-- Rust str::trim on a character list: whitespace removed from both ends. -/
def trimChars (cs : List Char) : List Char :=
  ((cs.dropWhile isWsChar).reverse.dropWhile isWsChar).reverse

/-- Rust str::trim. -/
def rustTrim (s : String) : String := ⟨trimChars s.data⟩

/-- Rust str::split on a separator character: the list of (possibly empty)
chunks between separators. -/
def splitOnChar (sep : Char) : List Char → List (List Char)
  | [] => [[]]
  | c :: rest =>
    let r := splitOnChar sep rest
    if c = sep then [] :: r
    else
      match r with
      | [] => [[c]]
      | g :: gs => (c :: g) :: gs

/-- Boolean check that the second list is an initial segment of the first,
comparing characters left to right (Rust str::starts_with). -/
def listStartsWith : List Char → List Char → Bool
  | _, [] => true
  | [], _ :: _ => false
  | a :: as, b :: bs => (a == b) && listStartsWith as bs

/-- One fuel-indexed step list for Rust str::replace: every non-overlapping
occurrence of pat, scanning left to right, is replaced by rep. The fuel is
the input length, enough because each step consumes at least one
character. -/
def replaceAllFuel (pat rep : List Char) : Nat → List Char → List Char
  | _, [] => []
  | 0, s => s
  | Nat.succ fuel, c :: rest =>
    if pat ≠ [] && listStartsWith (c :: rest) pat then
      rep ++ replaceAllFuel pat rep fuel ((c :: rest).drop pat.length)
    else
      c :: replaceAllFuel pat rep fuel rest

/-- Rust str::replace. -/
def replaceAll (s pat rep : String) : String :=
  ⟨replaceAllFuel pat.data rep.data s.data.length s.data⟩

/-- The nonempty slash-separated segments of a path string. -/
def pathSegments (p : String) : List (List Char) :=
  (splitOnChar '/' p.data).filter (· ≠ [])

/-- Rust Path::file_stem on a file name: the part before the last dot, the
whole name when there is no dot, and the whole name for a leading-dot file
with no further dot. -/
def fileStemChars (file : List Char) : List Char :=
  let r := file.reverse
  let e := r.takeWhile (fun c => c ≠ '.')
  if r.drop (e.length + 1) = [] then file else (r.drop (e.length + 1)).reverse

/-- Rust Path::extension on a file name: the part after the last dot,
provided something precedes that dot; none otherwise. -/
def extOf (f : String) : Option String :=
  let r := f.data.reverse
  let e := r.takeWhile (fun c => c ≠ '.')
  if r.drop (e.length + 1) = [] then none else some ⟨e.reverse⟩

/-- The name of the directory containing the file: the next-to-last
nonempty path segment. None models the case where Rust
path.parent().file_name() has no name to give, which the source unwraps
(a panic). -/
def parentDirName (filePath : String) : Option String :=
  match (pathSegments filePath).reverse with
  | _ :: parent :: _ => some ⟨parent⟩
  | _ => none

/-- Models the slug crate's slugify on ASCII input: alphanumeric runs are
lowercased and joined by single dashes; every other character is a
separator and no dash appears at either end. -/
def slugify (s : String) : String :=
  let runs := (s.data.splitOnP (fun c => !c.isAlphanum)).filter (· ≠ [])
  ⟨List.intercalate ['-'] (runs.map (·.map Char.toLower))⟩

/-- The front-matter fields the embedded code paths consult: the optional
explicit slug and url-path overrides (string-valued) and the optional date
normalized to a comparable timestamp. -/
structure PageFrontMatter where
  slug : Option String := none
  path : Option String := none
  date : Option Nat := none
deriving Repr, DecidableEq

/-- Decode one front-matter line of the form key = "value"; lines of any
other shape are not string key-value pairs. -/
def parseStringKV (line : List Char) : Option (String × String) :=
  let line := trimChars line
  let key := line.takeWhile (fun c => c.isAlpha)
  match trimChars (line.drop key.length) with
  | '=' :: rest =>
    match trimChars rest with
    | '"' :: vrest =>
      let v := vrest.takeWhile (fun c => c ≠ '"')
      if vrest.drop v.length = ['"'] then some (⟨key⟩, ⟨v⟩) else none
    | _ => none
  | _ => none

/-- Fold the front-matter block line by line, keeping the slug and path
string fields; other lines flow through undecoded. -/
def decodeFrontMatter (block : List Char) : PageFrontMatter :=
  (splitOnChar '\n' block).foldl
    (fun fm line =>
      match parseStringKV line with
      | some (k, v) =>
        if k = "slug" then { fm with slug := some v }
        else if k = "path" then { fm with path := some v }
        else fm
      | none => fm)
    {}

/-- Scan for the closing front-matter marker: the block is everything before
the first occurrence of the marker, the body everything after it with one
optional line break consumed. None when no closing marker exists. -/
def splitAtCloseMarker : List Char → Option (List Char × List Char)
  | [] => none
  | c :: rest =>
    if listStartsWith (c :: rest) ['+', '+', '+'] then
      let after := (c :: rest).drop 3
      let body :=
        match after with
        | '\r' :: '\n' :: r => r
        | '\n' :: r => r
        | r => r
      some ([], body)
    else
      (splitAtCloseMarker rest).map (fun pr => (c :: pr.1, pr.2))

/-- Modelled from the spec: the front-matter splitter of the front_matter
component (its source is not under src/). A page file must open, after
optional leading whitespace, with a `+++` delimiter line; the block runs to
the next `+++` marker and the remainder is the body. A missing opening
delimiter (or a missing closing marker) is a parse error. Only the
string-valued slug and path fields of the schema are decoded here, the
fields the embedded claims depend on. -/
def split_page_content (content : String) : Option (PageFrontMatter × String) :=
  let cs := content.data.dropWhile isWsChar
  if listStartsWith cs ['+', '+', '+'] then
    match cs.drop 3 with
    | '\n' :: rest =>
      (splitAtCloseMarker rest).map (fun pr => (decodeFrontMatter pr.1, ⟨pr.2⟩))
    | '\r' :: '\n' :: rest =>
      (splitAtCloseMarker rest).map (fun pr => (decodeFrontMatter pr.1, ⟨pr.2⟩))
    | _ => none
  else none

/-- Modelled from the spec: FileInfo (its source is not under src/) derives
canonical location metadata for one content file. components is the ordered
list of directory names from the content root to the file, excluding the
file itself; name is the file stem. The content root is the first path
segment named content; for paths not under a content root every directory
counts. -/
structure FileInfo where
  path : String
  components : List String
  name : String
deriving Repr, DecidableEq

/-- The path segments below the content root: everything up to and
including the first segment named content is dropped; a path with no
content segment is already content-relative. -/
def afterContentRoot (segs : List (List Char)) : List (List Char) :=
  if segs.contains ['c', 'o', 'n', 't', 'e', 'n', 't']
  then (segs.dropWhile (fun s => !(s == ['c', 'o', 'n', 't', 'e', 'n', 't']))).drop 1
  else segs

/-- Modelled from the spec: FileInfo::new_page. An index-style file stands
for its containing directory, so that directory is not counted among the
directory components of the page; this is pinned by the asset test of
page.rs, which expects the page of posts/with-assets/index.md to live at
posts/with-assets/ and not at posts/with-assets/with-assets/. -/
def FileInfo.new_page (filePath : String) : FileInfo :=
  let rel := afterContentRoot (pathSegments filePath)
  let name : String := ⟨fileStemChars (rel.getLastD [])⟩
  let comps := rel.dropLast
  let comps := if comps ≠ [] ∧ name = "index" then comps.dropLast else comps
  { path := filePath
    components := comps.map (fun cs => (⟨cs⟩ : String))
    name := name }

/-- Configuration slice the embedded code paths consult: the site base URL
and the optional ignored-content globset. The globset is abstracted as a
predicate on file names, exactly the way the code only ever calls
globset.is_match on a file name. -/
structure Config where
  base_url : String
  ignored_content_globset : Option (String → Bool) := none

/-- Modelled from the spec: Config::make_permalink (config component, not
under src/) joins the base URL and a site path into the absolute
permalink, collapsing a doubled or missing slash at the join point. -/
def Config.make_permalink (config : Config) (path : String) : String :=
  match config.base_url.data.getLast?, path.data with
  | some '/', '/' :: rest => config.base_url ++ ⟨rest⟩
  | some '/', _ => config.base_url ++ path
  | _, '/' :: _ => config.base_url ++ path
  | _, _ => config.base_url ++ "/" ++ path

/-- The non-link fields of a Page. -/
structure PageCore where
  file : FileInfo
  meta : PageFrontMatter
  raw_content : String
  assets : List String
  slug : String
  path : String
  components : List String
  permalink : String
deriving Repr, DecidableEq

/-- The Page entity. The four ordering links are embedded optional page
values, mirroring the source struct, where earlier, later, lighter and
heavier have type Option (Box (Page)): each link owns a full copy of the
neighboring page value. -/
inductive Page : Type where
  | mk (core : PageCore) (earlier later lighter heavier : Option Page) : Page

def Page.core : Page → PageCore
  | .mk c _ _ _ _ => c

def Page.earlier : Page → Option Page
  | .mk _ e _ _ _ => e

def Page.later : Page → Option Page
  | .mk _ _ l _ _ => l

def Page.lighter : Page → Option Page
  | .mk _ _ _ li _ => li

def Page.heavier : Page → Option Page
  | .mk _ _ _ _ h => h

def Page.file (p : Page) : FileInfo := p.core.file

def Page.meta (p : Page) : PageFrontMatter := p.core.meta

def Page.slug (p : Page) : String := p.core.slug

def Page.path (p : Page) : String := p.core.path

def Page.components (p : Page) : List String := p.core.components

def Page.permalink (p : Page) : String := p.core.permalink

def Page.assets (p : Page) : List String := p.core.assets

def Page.withAssets : Page → List String → Page
  | .mk c e l li h, a => .mk { c with assets := a } e l li h

/-- The slug computation of Page::parse (page.rs lines 103 to 117): an
explicit front-matter slug wins, trimmed; otherwise an index file slugifies
the name of its parent directory and any other file slugifies its stem.
None models the panic of the source when an index file has no named parent
directory to unwrap. -/
def derivedSlug (file : FileInfo) (filePath : String) (meta : PageFrontMatter) :
    Option String :=
  match meta.slug with
  | some s => some (rustTrim s)
  | none =>
    if file.name = "index" then (parentDirName filePath).map slugify
    else some (slugify file.name)

/-- The url-path computation of Page::parse (page.rs lines 119 to 130): an
explicit front-matter path wins, trimmed and with leading slashes stripped;
otherwise the directory components and the slug are joined; a trailing
slash is appended when absent. -/
def derivedPath (file : FileInfo) (meta : PageFrontMatter) (slug : String) :
    String :=
  let path0 : String :=
    match meta.path with
    | some p => ⟨(trimChars p.data).dropWhile (fun c => c = '/')⟩
    | none =>
      if file.components.isEmpty then slug
      else String.intercalate "/" file.components ++ "/" ++ slug
  if path0.data.getLast? = some '/' then path0 else path0 ++ "/"

/-- Embeds Page::parse (src/components/content/src/page.rs lines 96 to
139): split the front matter, derive the slug and the url path, split the
path into its nonempty components and build the permalink. The ordering
links start empty and the assets list starts empty, as in the source; the
word count and reading time of the source are omitted because no claim
depends on them. The Option failure absorbs both the parse error of a
malformed front-matter block and the panic of the slug derivation. -/
def Page.parse (file_path content : String) (config : Config) : Option Page :=
  match split_page_content content with
  | none => none
  | some (meta, body) =>
    let file := FileInfo.new_page file_path
    match derivedSlug file file_path meta with
    | none => none
    | some slug =>
      let path := derivedPath file meta slug
      some (Page.mk
        { file := file
          meta := meta
          raw_content := body
          assets := []
          slug := slug
          path := path
          components := (pathSegments path).map (fun cs => (⟨cs⟩ : String))
          permalink := config.make_permalink path }
        none none none none)

/-- Modelled from the spec: find_related_assets (utils component, not under
src/) collects the sibling non-content files of the directory of an index
file; a file is content when its extension is md, and a file with no
extension is not an asset. -/
def find_related_assets (siblings : List String) : List String :=
  siblings.filter (fun f =>
    match extOf f with
    | some e => !(e = "md")
    | none => false)

/-- Embeds Page::from_file (page.rs lines 142 to 174). The file system is
shallowly embedded: the raw text of the file and the sibling file names of
its parent directory are inputs. For an index file the assets are the
related sibling files minus those whose file name matches the ignore
globset when one is configured; any other page gets no assets. -/
def Page.from_file (file_path content : String) (siblings : List String)
    (config : Config) : Option Page :=
  match Page.parse file_path content config with
  | none => none
  | some page =>
    let assets :=
      if page.file.name = "index" then
        match config.ignored_content_globset with
        | some globset => (find_related_assets siblings).filter (fun f => !globset f)
        | none => find_related_assets siblings
      else []
    some (page.withAssets assets)

/-- A regular file of the file-system model: its bytes and its modification
time. The byte length of the metadata is the length of the content. -/
structure FSFile where
  content : List Nat
  mtime : Nat
deriving Repr, DecidableEq

/-- What a metadata read of one path can observe: no entry at all, an entry
whose metadata cannot be read (the read fails), or a regular file. -/
inductive FStat where
  | absent
  | unreadable
  | present (f : FSFile)
deriving Repr, DecidableEq

/-- The file system as a map from paths to their status. -/
def FS := String → FStat

/-- Write a regular file at a path. -/
def setFile (fs : FS) (p : String) (f : FSFile) : FS :=
  fun q => if q = p then .present f else fs q

/-- Rust Path::is_file: metadata is read and reports a regular file; a
failed metadata read reports false. -/
def isFile (fs : FS) (p : String) : Bool :=
  match fs p with
  | .present _ => true
  | _ => false

/-- Rust Path::exists: the metadata read succeeds; a failed read reports
false. -/
def pathExists (fs : FS) (p : String) : Bool :=
  match fs p with
  | .present _ => true
  | _ => false

/-- Embeds copy_file_if_needed (src/components/utils/src/fs.rs lines 109 to
168) at the instantiation the claims are about, configoptimize = None, so
both match arms on the source extension take the plain-copy branch. With
hard_link the link is attempted unconditionally and fails when the
destination entry already exists. Without it, the source metadata is read
(a failure propagates), and the copy is skipped exactly when the
destination is a readable regular file with the same modification time and
the same byte length; otherwise the bytes are copied and the destination
modification time is set to the source modification time. The returned
Bool reports whether a byte copy occurred. -/
def copy_file_if_needed (fs : FS) (src dest : String) (hard_link : Bool) :
    Except Unit (FS × Bool) :=
  if hard_link then
    match fs src, fs dest with
    | .present f, .absent => .ok (setFile fs dest f, false)
    | _, _ => .error ()
  else
    match fs src with
    | .present m =>
      match fs dest with
      | .present d =>
        if m.mtime = d.mtime ∧ m.content.length = d.content.length then
          .ok (fs, false)
        else
          .ok (setFile fs dest ⟨m.content, m.mtime⟩, true)
      | _ => .ok (setFile fs dest ⟨m.content, m.mtime⟩, true)
    | _ => .error ()

/-- Embeds get_file_time (fs.rs lines 195 to 204): the newest of the
creation and modification times when metadata can be read, none
otherwise. The model keeps one timestamp per file. -/
def get_file_time (fs : FS) (p : String) : Option Nat :=
  match fs p with
  | .present f => some f.mtime
  | _ => none

/-- Embeds file_stale (fs.rs lines 208 to 224): a missing target is stale,
and when either timestamp cannot be read the comparison defaults to
stale. -/
def file_stale (fs : FS) (p_source p_target : String) : Bool :=
  if !pathExists fs p_target then true
  else
    match get_file_time fs p_source, get_file_time fs p_target with
    | some ts, some tt => decide (ts > tt)
    | _, _ => true

/-- The change classification of the serve command. -/
inductive ChangeKind where
  | Content
  | Templates
  | StaticFiles
deriving Repr, DecidableEq

def templatesChars : List Char := ['/', 't', 'e', 'm', 'p', 'l', 'a', 't', 'e', 's']

def contentChars : List Char := ['/', 'c', 'o', 'n', 't', 'e', 'n', 't']

def staticChars : List Char := ['/', 's', 't', 'a', 't', 'i', 'c']

/-- The path string detect_change_kind classifies: the working directory is
erased from the changed path (str::replace, every occurrence) and
backslashes become slashes. -/
def strippedPath (pwd path : String) : String :=
  replaceAll (replaceAll path pwd "") "\\" "/"

/-- Embeds detect_change_kind (src/src/cmd/serve.rs lines 185 to 200): the
stripped path is classified by string prefix, templates checked before
content before static; a path matching none of the three prefixes reaches
the unreachable branch of the source, modelled as none. -/
def detect_change_kind (pwd path : String) : Option (ChangeKind × String) :=
  let path_str := strippedPath pwd path
  if listStartsWith path_str.data templatesChars then
    some (ChangeKind.Templates, path_str)
  else if listStartsWith path_str.data contentChars then
    some (ChangeKind.Content, path_str)
  else if listStartsWith path_str.data staticChars then
    some (ChangeKind.StaticFiles, path_str)
  else
    none

/-- A page value with every field empty, used only to name the result of a
successful parse in closed witness statements. -/
def pageDefault : Page :=
  .mk
    { file := { path := "", components := [], name := "" }
      meta := {}
      raw_content := ""
      assets := []
      slug := ""
      path := ""
      components := []
      permalink := "" }
    none none none none

/-- Bool test that a string ends in exactly one slash: the last character
is a slash and the one before it is not. -/
def endsWithSingleSlash (s : String) : Bool :=
  (s.data.getLast? == some '/') && !(listStartsWith s.data.reverse ['/', '/'])

/-- The derived name of the slug property, following the claim's words: the
parent directory name when the file stem is index, the file stem
otherwise. -/
def pageDerivedName (filePath : String) : Option String :=
  let file := FileInfo.new_page filePath
  if file.name = "index" then parentDirName filePath else some file.name

/-- C1: a page file at content/posts/intro/start.md whose front matter sets
slug = "hello-world", parsed with base URL http://hello.com/, succeeds and
yields path posts/intro/hello-world/, components
[posts, intro, hello-world] and permalink
http://hello.com/posts/intro/hello-world/. -/
theorem c1_scenario_slug_path_permalink :
    ((Page.parse "content/posts/intro/start.md"
        "+++\nslug = \"hello-world\"\n+++\nHello world"
        { base_url := "http://hello.com/" }).map Page.path
      = some "posts/intro/hello-world/")
    ∧ ((Page.parse "content/posts/intro/start.md"
        "+++\nslug = \"hello-world\"\n+++\nHello world"
        { base_url := "http://hello.com/" }).map Page.components
      = some ["posts", "intro", "hello-world"])
    ∧ ((Page.parse "content/posts/intro/start.md"
        "+++\nslug = \"hello-world\"\n+++\nHello world"
        { base_url := "http://hello.com/" }).map Page.permalink
      = some "http://hello.com/posts/intro/hello-world/") := by
  refine ⟨?_, ?_, ?_⟩ <;> rfl

/-- The url path computed by Page::parse always ends in a slash: either the
candidate already does, or one is appended. -/
theorem derivedPath_getLast (file : FileInfo) (meta : PageFrontMatter)
    (slug : String) : (derivedPath file meta slug).data.getLast? = some '/' := by
  unfold derivedPath
  set path0 : String :=
    match meta.path with
    | some p => (⟨(trimChars p.data).dropWhile (fun c => c = '/')⟩ : String)
    | none =>
      if file.components.isEmpty then slug
      else String.intercalate "/" file.components ++ "/" ++ slug
    with hp0
  by_cases h : path0.data.getLast? = some '/'
  · simp [h]
  · simp only [h, if_false]
    show (path0 ++ "/").data.getLast? = some '/'
    rw [String.data_append]
    exact List.getLast?_concat _

/-- C3 amended: every successfully parsed page has a path ending in a slash
(at least one), and its components are exactly the nonempty slash-separated
segments of that path. -/
theorem c3_amended_path_slash_components (file_path content : String)
    (config : Config) (p : Page)
    (h : Page.parse file_path content config = some p) :
    p.path.data.getLast? = some '/'
    ∧ p.components = (pathSegments p.path).map (fun cs => (⟨cs⟩ : String)) := by
  unfold Page.parse at h
  cases hs : split_page_content content with
  | none => rw [hs] at h; exact absurd h (by simp)
  | some mb =>
    rw [hs] at h
    obtain ⟨meta, body⟩ := mb
    dsimp only at h
    cases hd : derivedSlug (FileInfo.new_page file_path) file_path meta with
    | none => rw [hd] at h; exact absurd h (by simp)
    | some slug =>
      rw [hd] at h
      simp only [Option.some.injEq] at h
      subst h
      exact ⟨derivedPath_getLast _ _ _, rfl⟩

/-- C3 counterexample: with an explicit front-matter path hello//, the
parsed page's path is hello//, which does not end in exactly one slash. -/
theorem c3_counterexample_double_slash :
    ((Page.parse "start.md" "+++\npath = \"hello//\"\n+++\nx"
        { base_url := "http://a-website.com/" }).map Page.path = some "hello//")
    ∧ ((Page.parse "start.md" "+++\npath = \"hello//\"\n+++\nx"
        { base_url := "http://a-website.com/" }).map
          (fun p => endsWithSingleSlash p.path) = some false) := by
  refine ⟨?_, ?_⟩ <;> rfl

/-- C3 witness: the scenario-1 page evaluates the amended property. -/
theorem c3_witness_scenario_page :
    ((Page.parse "content/posts/intro/start.md"
        "+++\nslug = \"hello-world\"\n+++\nHello world"
        { base_url := "http://hello.com/" }).getD pageDefault).path.data.getLast?
      = some '/'
    ∧ ((Page.parse "content/posts/intro/start.md"
        "+++\nslug = \"hello-world\"\n+++\nHello world"
        { base_url := "http://hello.com/" }).getD pageDefault).components
      = (pathSegments ((Page.parse "content/posts/intro/start.md"
          "+++\nslug = \"hello-world\"\n+++\nHello world"
          { base_url := "http://hello.com/" }).getD pageDefault).path).map
        (fun cs => (⟨cs⟩ : String)) :=
  c3_amended_path_slash_components "content/posts/intro/start.md"
    "+++\nslug = \"hello-world\"\n+++\nHello world"
    { base_url := "http://hello.com/" } _ rfl

/-- C4: a parsed page with no explicit front-matter slug gets the slugified
derived name, the parent directory name for an index file and the file stem
otherwise; an explicit slug wins (trimmed, as the source stores it). -/
theorem c4_slug_derivation (file_path content : String) (config : Config)
    (p : Page) (h : Page.parse file_path content config = some p) :
    (p.meta.slug = none →
      ∃ d, pageDerivedName file_path = some d ∧ p.slug = slugify d)
    ∧ (∀ s, p.meta.slug = some s → p.slug = rustTrim s) := by
  unfold Page.parse at h
  cases hs : split_page_content content with
  | none => rw [hs] at h; exact absurd h (by simp)
  | some mb =>
    rw [hs] at h
    obtain ⟨meta, body⟩ := mb
    dsimp only at h
    cases hd : derivedSlug (FileInfo.new_page file_path) file_path meta with
    | none => rw [hd] at h; exact absurd h (by simp)
    | some slug =>
      rw [hd] at h
      simp only [Option.some.injEq] at h
      subst h
      constructor
      · intro hns
        simp only [Page.meta, Page.core] at hns
        unfold derivedSlug at hd
        rw [hns] at hd
        by_cases hidx : (FileInfo.new_page file_path).name = "index"
        · rw [if_pos hidx] at hd
          rw [Option.map_eq_some'] at hd
          obtain ⟨d, hdn, hsl⟩ := hd
          exact ⟨d, by simp [pageDerivedName, hidx, hdn], by
            simp only [Page.slug, Page.core]; exact hsl.symm⟩
        · rw [if_neg hidx] at hd
          simp only [Option.some.injEq] at hd
          exact ⟨(FileInfo.new_page file_path).name,
            by simp [pageDerivedName, hidx], by
              simp only [Page.slug, Page.core]; exact hd.symm⟩
      · intro s hs2
        simp only [Page.meta, Page.core] at hs2
        unfold derivedSlug at hd
        rw [hs2] at hd
        simp only [Option.some.injEq] at hd
        simp only [Page.slug, Page.core]
        exact hd.symm

/-- C4 witness: a file named start.md with empty front matter gets the
slugified stem. -/
theorem c4_witness_stem_slug :
    (((Page.parse "content/posts/intro/start.md" "+++\n+++\nBody"
        { base_url := "http://hello.com/" }).getD pageDefault).meta.slug = none →
      ∃ d, pageDerivedName "content/posts/intro/start.md" = some d
        ∧ ((Page.parse "content/posts/intro/start.md" "+++\n+++\nBody"
            { base_url := "http://hello.com/" }).getD pageDefault).slug = slugify d)
    ∧ (∀ s, ((Page.parse "content/posts/intro/start.md" "+++\n+++\nBody"
        { base_url := "http://hello.com/" }).getD pageDefault).meta.slug = some s →
      ((Page.parse "content/posts/intro/start.md" "+++\n+++\nBody"
          { base_url := "http://hello.com/" }).getD pageDefault).slug = rustTrim s) :=
  c4_slug_derivation "content/posts/intro/start.md" "+++\n+++\nBody"
    { base_url := "http://hello.com/" } _ rfl

/-- C5: a file whose text lacks the front-matter opening delimiter (after
optional leading whitespace the text does not open with the marker) is a
parse failure; no page, with default metadata or otherwise, is returned. -/
theorem c5_missing_open_delimiter_errors (file_path content : String)
    (config : Config)
    (h : listStartsWith (content.data.dropWhile isWsChar) ['+', '+', '+'] = false) :
    Page.parse file_path content config = none := by
  unfold Page.parse split_page_content
  simp [h]

/-- C5 witness: the file of the source's own front-matter test, whose
leading delimiter is missing, fails to parse. -/
theorem c5_witness_concrete_error :
    Page.parse "start.md" "title = \"Hello\"\n+++\nHello world"
      { base_url := "http://hello.com/" } = none :=
  c5_missing_open_delimiter_errors "start.md" "title = \"Hello\"\n+++\nHello world"
    { base_url := "http://hello.com/" } (by decide)

/-- A page embedded as somebody's later link is a strict structural part of
the page that links to it. -/
theorem sizeOf_lt_of_later (p l : Page) (h : p.later = some l) :
    sizeOf l < sizeOf p := by
  cases p with
  | mk c e lt li hv =>
    simp [Page.later] at h
    subst h
    simp
    omega

/-- A page embedded as somebody's earlier link is a strict structural part
of the page that links to it. -/
theorem sizeOf_lt_of_earlier (p l : Page) (h : p.earlier = some l) :
    sizeOf l < sizeOf p := by
  cases p with
  | mk c e lt li hv =>
    simp [Page.earlier] at h
    subst h
    simp
    omega

/-- C2 amended: the ordering links of Page are embedded copies of page
values, not arena keys, so the claimed mutual-link equality can hold for no
page at all: whenever P.later exists, P.later.earlier is never P, and
symmetrically for earlier and later, because a page value is a finite tree
that cannot contain itself. -/
theorem c2_amended_links_never_mutual (p l : Page) :
    (p.later = some l → l.earlier ≠ some p)
    ∧ (p.earlier = some l → l.later ≠ some p) := by
  constructor
  · intro h hc
    have h1 := sizeOf_lt_of_later p l h
    have h2 := sizeOf_lt_of_earlier l p hc
    omega
  · intro h hc
    have h1 := sizeOf_lt_of_earlier p l h
    have h2 := sizeOf_lt_of_later l p hc
    omega

/-- A dated page pair linked the way the embedded representation permits:
the older page is stored inside the newer one as a value copy whose own
links are empty. -/
def c2PageOlder : Page :=
  .mk
    { file := { path := "content/b.md", components := [], name := "b" }
      meta := { date := some 1 }
      raw_content := ""
      assets := []
      slug := "b"
      path := "b/"
      components := ["b"]
      permalink := "http://hello.com/b/" }
    none none none none

def c2PageNewer : Page :=
  .mk
    { file := { path := "content/a.md", components := [], name := "a" }
      meta := { date := some 2 }
      raw_content := ""
      assets := []
      slug := "a"
      path := "a/"
      components := ["a"]
      permalink := "http://hello.com/a/" }
    none (some c2PageOlder) none none

/-- C2 counterexample: a concrete dated page whose later link exists, yet
whose later.earlier is not the page itself, the only shape the embedded
representation can produce. -/
theorem c2_counterexample_dated_pair :
    c2PageNewer.meta.date = some 2
    ∧ c2PageNewer.later = some c2PageOlder
    ∧ c2PageOlder.earlier ≠ some c2PageNewer := by
  refine ⟨rfl, rfl, ?_⟩
  intro h
  exact Option.noConfusion h

/-- C2 witness: the amended impossibility applied to the concrete pair. -/
theorem c2_witness_concrete_pair :
    c2PageOlder.earlier ≠ some c2PageNewer :=
  (c2_amended_links_never_mutual c2PageNewer c2PageOlder).1 rfl

/-- Whether a file name matches the configured ignore globset; no
configured globset matches nothing. -/
def matchesIgnore (config : Config) (f : String) : Bool :=
  match config.ignored_content_globset with
  | some globset => globset f
  | none => false

theorem Page.withAssets_file (p : Page) (a : List String) :
    (p.withAssets a).file = p.file := by
  cases p; rfl

theorem Page.withAssets_assets (p : Page) (a : List String) :
    (p.withAssets a).assets = a := by
  cases p; rfl

/-- C6: a page loaded from file has no assets unless its stem is index; an
index page's assets are exactly the related sibling files minus those whose
file name matches the ignore globset. -/
theorem c6_assets_index_only (file_path content : String)
    (siblings : List String) (config : Config) (p : Page)
    (h : Page.from_file file_path content siblings config = some p) :
    (¬ p.file.name = "index" → p.assets = [])
    ∧ (p.file.name = "index" →
        p.assets = (find_related_assets siblings).filter
          (fun f => !matchesIgnore config f)) := by
  unfold Page.from_file at h
  cases hp : Page.parse file_path content config with
  | none => rw [hp] at h; exact absurd h (by simp)
  | some page =>
    rw [hp] at h
    dsimp only at h
    simp only [Option.some.injEq] at h
    subst h
    rw [Page.withAssets_file]
    by_cases hidx : page.file.name = "index"
    · refine ⟨fun hn => absurd hidx hn, fun _ => ?_⟩
      rw [if_pos hidx, Page.withAssets_assets]
      cases hg : config.ignored_content_globset with
      | some globset =>
        simp only [matchesIgnore, hg]
      | none =>
        simp [matchesIgnore, hg, List.filter_true]
    · refine ⟨fun _ => ?_, fun hy => absurd hy hidx⟩
      rw [if_neg hidx, Page.withAssets_assets]

/-- C6 witness: the asset test of the source, posts/with-assets/index.md
with siblings example.js, graph.jpg, fail.png and a globset matching the js
and png files, keeps exactly graph.jpg; the same theorem evaluated at a
non-index file gives no assets. -/
theorem c6_witness_with_assets :
    ((Page.from_file "content/posts/with-assets/index.md" "+++\n+++\n"
        ["index.md", "example.js", "graph.jpg", "fail.png"]
        { base_url := "http://a-website.com/"
          ignored_content_globset := some (fun f => f = "example.js" || f = "fail.png") }).getD
      pageDefault).assets = ["graph.jpg"] := by
  have h := (c6_assets_index_only "content/posts/with-assets/index.md" "+++\n+++\n"
    ["index.md", "example.js", "graph.jpg", "fail.png"]
    { base_url := "http://a-website.com/"
      ignored_content_globset := some (fun f => f = "example.js" || f = "fail.png") }
    _ rfl).2 (by rfl)
  exact h.trans rfl

/-- C7: without hard linking, copy_file_if_needed on a readable source
succeeds, skips the byte copy exactly when the destination is a regular
file with the source's modification time and byte length, stamps the
source's modification time on the destination after any actual copy, and a
second call on the resulting state performs no copy and leaves the state
untouched. -/
theorem c7_copy_skip_iff_idempotent (fs : FS) (src dest : String) (m : FSFile)
    (h : fs src = .present m) :
    ∃ fs₁ c₁, copy_file_if_needed fs src dest false = .ok (fs₁, c₁)
      ∧ (c₁ = false ↔ ∃ d, fs dest = .present d ∧ m.mtime = d.mtime
          ∧ m.content.length = d.content.length)
      ∧ (c₁ = true → fs₁ dest = .present ⟨m.content, m.mtime⟩)
      ∧ copy_file_if_needed fs₁ src dest false = .ok (fs₁, false) := by
  have h2 : setFile fs dest ⟨m.content, m.mtime⟩ dest
      = .present ⟨m.content, m.mtime⟩ := by simp [setFile]
  have hsecond : copy_file_if_needed (setFile fs dest ⟨m.content, m.mtime⟩)
      src dest false = .ok (setFile fs dest ⟨m.content, m.mtime⟩, false) := by
    by_cases hsd : src = dest
    · subst hsd
      simp [copy_file_if_needed, h2]
    · have h1 : setFile fs dest ⟨m.content, m.mtime⟩ src = .present m := by
        simp [setFile, hsd, h]
      simp [copy_file_if_needed, h1, h2]
  cases hd : fs dest with
  | present d =>
    by_cases hc : m.mtime = d.mtime ∧ m.content.length = d.content.length
    · refine ⟨fs, false, ?_, ?_, ?_, ?_⟩
      · simp [copy_file_if_needed, h, hd, hc]
      · exact iff_of_true rfl ⟨d, rfl, hc.1, hc.2⟩
      · intro hcontra
        exact Bool.noConfusion hcontra
      · simp [copy_file_if_needed, h, hd, hc]
    · refine ⟨setFile fs dest ⟨m.content, m.mtime⟩, true, ?_, ?_, ?_, ?_⟩
      · simp [copy_file_if_needed, h, hd, hc]
      · refine iff_of_false (by simp) ?_
        rintro ⟨d2, hd2, hcc1, hcc2⟩
        injection hd2 with e
        subst e
        exact hc ⟨hcc1, hcc2⟩
      · intro _
        exact h2
      · exact hsecond
  | absent =>
    refine ⟨setFile fs dest ⟨m.content, m.mtime⟩, true, ?_, ?_, ?_, ?_⟩
    · simp [copy_file_if_needed, h, hd]
    · refine iff_of_false (by simp) ?_
      rintro ⟨d2, hd2, -⟩
      exact FStat.noConfusion hd2
    · intro _
      exact h2
    · exact hsecond
  | unreadable =>
    refine ⟨setFile fs dest ⟨m.content, m.mtime⟩, true, ?_, ?_, ?_, ?_⟩
    · simp [copy_file_if_needed, h, hd]
    · refine iff_of_false (by simp) ?_
      rintro ⟨d2, hd2, -⟩
      exact FStat.noConfusion hd2
    · intro _
      exact h2
    · exact hsecond

/-- A concrete file system for the copy witnesses: one readable source file
and nothing else. -/
def fsOneSource : FS :=
  fun p => if p = "static/site.css" then .present ⟨[10, 20], 5⟩ else .absent

/-- C7 witness: copying the concrete source evaluates the skip, stamp and
idempotence properties at static/site.css to public/site.css. -/
theorem c7_witness_concrete_copy :
    ∃ fs₁ c₁,
      copy_file_if_needed fsOneSource "static/site.css" "public/site.css" false
        = .ok (fs₁, c₁)
      ∧ (c₁ = false ↔ ∃ d, fsOneSource "public/site.css" = .present d
          ∧ (5 : Nat) = d.mtime
          ∧ ([10, 20] : List Nat).length = d.content.length)
      ∧ (c₁ = true → fs₁ "public/site.css" = .present ⟨[10, 20], 5⟩)
      ∧ copy_file_if_needed fs₁ "static/site.css" "public/site.css" false
        = .ok (fs₁, false) :=
  c7_copy_skip_iff_idempotent fsOneSource "static/site.css" "public/site.css"
    ⟨[10, 20], 5⟩ rfl

/-- C8: when the metadata of the destination cannot be read, the staleness
check does not propagate the failure: copy_file_if_needed falls through to
the copy and succeeds, and file_stale reports the target as stale. -/
theorem c8_dest_read_failure_copies (fs : FS) (src dest : String) (m : FSFile)
    (hsrc : fs src = .present m) (hdest : fs dest = .unreadable) :
    copy_file_if_needed fs src dest false
      = .ok (setFile fs dest ⟨m.content, m.mtime⟩, true)
    ∧ file_stale fs src dest = true := by
  constructor
  · simp [copy_file_if_needed, hsrc, hdest]
  · simp [file_stale, pathExists, hdest]

/-- A concrete file system with a readable source and a destination whose
metadata read fails. -/
def fsUnreadableDest : FS :=
  fun p =>
    if p = "static/site.css" then .present ⟨[10, 20], 5⟩
    else if p = "public/site.css" then .unreadable
    else .absent

/-- C8 witness: the unreadable destination is copied over and reported
stale. -/
theorem c8_witness_unreadable_dest :
    copy_file_if_needed fsUnreadableDest "static/site.css" "public/site.css" false
      = .ok (setFile fsUnreadableDest "public/site.css" ⟨[10, 20], 5⟩, true)
    ∧ file_stale fsUnreadableDest "static/site.css" "public/site.css" = true :=
  c8_dest_read_failure_copies fsUnreadableDest "static/site.css"
    "public/site.css" ⟨[10, 20], 5⟩ rfl rfl

/-- C10: with hard_link requested the staleness check is bypassed: whenever
the destination entry exists, even as a regular file with the source's
modification time and length, the call errors; on an absent destination the
first call links and an immediate second call errors, so the twice-in-a-row
idempotence of the plain copy does not hold in hard-link mode. -/
theorem c10_hard_link_unconditional (fs : FS) (src dest : String) (m : FSFile)
    (h : fs src = .present m) :
    (∀ d, fs dest = .present d →
      copy_file_if_needed fs src dest true = .error ())
    ∧ (fs dest = .absent →
      copy_file_if_needed fs src dest true = .ok (setFile fs dest m, false)
      ∧ copy_file_if_needed (setFile fs dest m) src dest true = .error ()) := by
  constructor
  · intro d hd
    simp [copy_file_if_needed, h, hd]
  · intro hd
    have hsd : src ≠ dest := by
      intro e
      rw [e, hd] at h
      cases h
    constructor
    · simp [copy_file_if_needed, h, hd]
    · have h1 : setFile fs dest m src = .present m := by
        simp [setFile, hsd, h]
      have h2 : setFile fs dest m dest = .present m := by
        simp [setFile]
      simp [copy_file_if_needed, h1, h2]

/-- C10 witness: hard-linking the concrete source twice in a row fails on
the second call. -/
theorem c10_witness_second_link_errors :
    (∀ d, fsOneSource "public/site.css" = .present d →
      copy_file_if_needed fsOneSource "static/site.css" "public/site.css" true
        = .error ())
    ∧ (fsOneSource "public/site.css" = .absent →
      copy_file_if_needed fsOneSource "static/site.css" "public/site.css" true
        = .ok (setFile fsOneSource "public/site.css" ⟨[10, 20], 5⟩, false)
      ∧ copy_file_if_needed (setFile fsOneSource "public/site.css" ⟨[10, 20], 5⟩)
          "static/site.css" "public/site.css" true = .error ()) :=
  c10_hard_link_unconditional fsOneSource "static/site.css" "public/site.css"
    ⟨[10, 20], 5⟩ rfl

/-- A list opening with a two-character pattern exposes its first two
characters. -/
theorem listStartsWith_two (l : List Char) (a b : Char) (p : List Char)
    (h : listStartsWith l (a :: b :: p) = true) : ∃ t, l = a :: b :: t := by
  match l with
  | [] => simp [listStartsWith] at h
  | [c] => simp [listStartsWith] at h
  | c :: d :: t =>
    simp [listStartsWith] at h
    exact ⟨t, by rw [h.1, h.2.1]⟩

/-- A stripped path that opens with the content root marker cannot open
with the templates marker. -/
theorem content_not_templates (l : List Char)
    (h : listStartsWith l contentChars = true) :
    listStartsWith l templatesChars = false := by
  obtain ⟨t, rfl⟩ := listStartsWith_two l '/' 'c' _ h
  simp +decide [listStartsWith, templatesChars]

/-- A stripped path that opens with the static root marker cannot open with
the templates marker. -/
theorem static_not_templates (l : List Char)
    (h : listStartsWith l staticChars = true) :
    listStartsWith l templatesChars = false := by
  obtain ⟨t, rfl⟩ := listStartsWith_two l '/' 's' _ h
  simp +decide [listStartsWith, templatesChars]

/-- A stripped path that opens with the static root marker cannot open with
the content root marker. -/
theorem static_not_content (l : List Char)
    (h : listStartsWith l staticChars = true) :
    listStartsWith l contentChars = false := by
  obtain ⟨t, rfl⟩ := listStartsWith_two l '/' 's' _ h
  simp +decide [listStartsWith, contentChars]

/-- C9 amended: detect_change_kind classifies the pwd-stripped path purely
by string prefix, templates before content before static; the unreachable
branch fires exactly when the stripped path opens with none of the three
prefixes, so a path under one of the roots is classified as that root, but
a path under none of them whose stripped form merely extends a root name is
still classified rather than failing. -/
theorem c9_amended_prefix_classification (pwd path : String) :
    (listStartsWith (strippedPath pwd path).data templatesChars = true →
      detect_change_kind pwd path
        = some (ChangeKind.Templates, strippedPath pwd path))
    ∧ (listStartsWith (strippedPath pwd path).data contentChars = true →
      detect_change_kind pwd path
        = some (ChangeKind.Content, strippedPath pwd path))
    ∧ (listStartsWith (strippedPath pwd path).data staticChars = true →
      detect_change_kind pwd path
        = some (ChangeKind.StaticFiles, strippedPath pwd path))
    ∧ (listStartsWith (strippedPath pwd path).data templatesChars = false →
      listStartsWith (strippedPath pwd path).data contentChars = false →
      listStartsWith (strippedPath pwd path).data staticChars = false →
      detect_change_kind pwd path = none) := by
  refine ⟨?_, ?_, ?_, ?_⟩
  · intro h
    simp [detect_change_kind, h]
  · intro h
    have ht := content_not_templates _ h
    simp [detect_change_kind, ht, h]
  · intro h
    have ht := static_not_templates _ h
    have hcnt := static_not_content _ h
    simp [detect_change_kind, ht, hcnt, h]
  · intro h1 h2 h3
    simp [detect_change_kind, h1, h2, h3]

/-- C9 counterexample: the path /home/staticfiles/x.css lies under none of
the three watched roots of /home, yet detect_change_kind classifies it as a
static-file change instead of reaching the unreachable branch. -/
theorem c9_counterexample_staticfiles :
    detect_change_kind "/home" "/home/staticfiles/x.css"
      = some (ChangeKind.StaticFiles, "/staticfiles/x.css")
    ∧ listStartsWith "/staticfiles/x.css".data (templatesChars ++ ['/']) = false
    ∧ listStartsWith "/staticfiles/x.css".data (contentChars ++ ['/']) = false
    ∧ listStartsWith "/staticfiles/x.css".data (staticChars ++ ['/']) = false := by
  refine ⟨by decide, by decide, by decide, by decide⟩

/-- C9 witness: a genuine content-root change is classified as a content
change. -/
theorem c9_witness_content_change :
    detect_change_kind "/home/vincent/site" "/home/vincent/site/content/posts/hello.md"
      = some (ChangeKind.Content,
          strippedPath "/home/vincent/site" "/home/vincent/site/content/posts/hello.md") :=
  (c9_amended_prefix_classification "/home/vincent/site"
    "/home/vincent/site/content/posts/hello.md").2.1 (by decide)
